import Mathlib

/-!
Verification development for the client-side SOCKS5 proxy in `src/local.c`
(shadowsocks-libev, `ss-local`).

The per-session event engine of `local.c` is embedded as an executable state
machine.  The state `St` holds the fields of `struct server` and
`struct remote` that the callbacks read and write (handshake stage, buffer
bookkeeping `buf_idx`/`buf_len`, the libev watcher and timer flags, the
`connected` and `direct` flags, the process-wide `fast_open` flag), the
byte contents of the upstream-bound buffer, and ghost fields recording the
byte streams and replies that crossed each socket.  Every transition mirrors
one invocation of one callback (`server_recv_cb`, `server_send_cb`,
`remote_recv_cb`, `remote_send_cb`, `remote_timeout_cb`); the choices made
by the environment (bytes returned by `recv`, counts accepted by `send` and
`sendto`, `errno`, `getpeername` success, access-list answers, resolver
success, reply-send success) are parameters of the event.

The cipher collaborator (`ss_encrypt`/`ss_decrypt`) is not part of
`local.c`; it is a parameter of the machine: a family of functions indexed
by how many chunks the context has processed, mirroring the stateful
per-direction contexts `e_ctx`/`d_ctx`.
-/

/-- BUF_SIZE from local.c. -/
def BUFSZ : Nat := 2048

/-- The errno values the callbacks distinguish.  EWOULDBLOCK is folded into
EAGAIN exactly as the code treats them identically. -/
inductive Errno where
  | eagain | einprogress | enotconn | eother
  deriving Repr, DecidableEq

/-- Outcome of a recv call: some bytes, orderly peer close (length 0), or an
error with an errno. -/
inductive ROut where
  | bytes (data : List Nat)
  | closed
  | rerr (e : Errno)
  deriving Repr, DecidableEq

/-- Outcome of a send/sendto call: a count of accepted bytes, or an error. -/
inductive SOut where
  | sent (k : Nat)
  | serr (e : Errno)
  deriving Repr, DecidableEq

/-- One event-loop callback invocation together with the environment
choices it observes. -/
inductive Ev where
  | srvRecv (ro : ROut) (aclMatch connOk replyOk : Bool) (so : SOut)
  | srvSend (so : SOut)
  | rmtRecv (ro : ROut) (so : SOut)
  | rmtSend (peerOk : Bool) (so : SOut)
  | timerFire
  deriving Repr

/-- Per-session state: the fields of the paired `struct server` and
`struct remote` that the callbacks in local.c touch, plus ghost fields. -/
structure St where
  /-- the session is live (neither endpoint has been closed and freed) -/
  alive : Bool
  /-- a NULL remote pointer was dereferenced (undefined behavior reached) -/
  crashed : Bool
  /-- process-wide `fast_open` flag as seen by this session -/
  fastOpen : Bool
  /-- Field `server->stage`: 0, 1 or 5 -/
  stage : Nat
  /-- server (inbound) read watcher `server->recv_ctx->io` armed -/
  srOn : Bool
  /-- server (inbound) write watcher `server->send_ctx->io` armed -/
  ssOn : Bool
  /-- Field `server->buf_idx` -/
  sIdx : Nat
  /-- Field `server->buf_len` -/
  sLen : Nat
  /-- Whether `server->remote != NULL` -/
  hasRemote : Bool
  /-- Field `remote->direct` -/
  direct : Bool
  /-- Field `remote->send_ctx->connected` -/
  connected : Bool
  /-- remote (upstream) read watcher `remote->recv_ctx->io` armed -/
  rrOn : Bool
  /-- remote (upstream) write watcher `remote->send_ctx->io` armed -/
  rsOn : Bool
  /-- connect deadline timer `remote->send_ctx->watcher` running -/
  sendTimerOn : Bool
  /-- idle timer `remote->recv_ctx->watcher` running -/
  recvTimerOn : Bool
  /-- byte contents of `remote->buf` from offset 0 -/
  rMem : List Nat
  /-- Field `remote->buf_idx` -/
  rIdx : Nat
  /-- Field `remote->buf_len` -/
  rLen : Nat
  /-- chunks consumed so far by the encrypt context `server->e_ctx` -/
  encIdx : Nat
  /-- chunks consumed so far by the decrypt context `server->d_ctx` -/
  decIdx : Nat
  /-- ghost: the SOCKS5 reply bytes sent to the client for a CONNECT -/
  connectReply : Option (List Nat)
  /-- ghost: the 4-byte error reply sent for an unsupported command -/
  errReply : Option (List Nat)
  /-- ghost: contents of `remote->buf` right after the stage-1 handler -/
  firstUpPlain : Option (List Nat)
  /-- ghost: concatenation of all chunks queued for the upstream
  (after the per-direction transform, header included) -/
  upExpected : List Nat
  /-- ghost: concatenation of all bytes actually written to the upstream -/
  upDelivered : List Nat
  /-- ghost: total bytes received from the upstream socket -/
  upstreamBytesRead : Nat
  deriving Repr, DecidableEq

/-- Immutable per-process configuration and external collaborators. -/
structure Cfg where
  /-- Flag `udprelay` set at startup -/
  udprelay : Bool
  /-- Function `ss_encrypt` through `server->e_ctx`, indexed by chunk count -/
  enc : Nat → List Nat → List Nat
  /-- Function `ss_decrypt` through `server->d_ctx`, indexed by chunk count -/
  dec : Nat → List Nat → List Nat

/-- Model of `close_and_free_remote` followed by `close_and_free_server`: stop all
watchers and timers, close, free. -/
def closeAll (s : St) : St :=
  { s with alive := false, srOn := false, ssOn := false, rrOn := false,
           rsOn := false, sendTimerOn := false, recvTimerOn := false }

/-- A chunk that a recv on a 2048-byte buffer can actually produce:
nonempty, at most BUF_SIZE long, made of bytes. -/
def validChunk (d : List Nat) : Prop :=
  d ≠ [] ∧ d.length ≤ BUFSZ ∧ d.all (fun b => b < 256) = true

instance (d : List Nat) : Decidable (validChunk d) :=
  inferInstanceAs (Decidable (d ≠ [] ∧ d.length ≤ BUFSZ ∧ d.all (fun b => b < 256) = true))

/-- The `ss_addr_to_send` bytes the stage-1 handler assembles for a
supported address type (local.c lines 367-421): the `atyp` byte, then for
atyp=1 one memcpy of 4+2 bytes from request offset 4, for atyp=3 the length
byte and one memcpy of `name_len`+2 bytes from offset 5, for atyp=4 one
memcpy of 16+2 bytes from offset 4. -/
def ssAddrToSend (data : List Nat) : List Nat :=
  let atyp := data.getD 3 0
  if atyp = 1 then atyp :: (data.drop 4).take 6
  else if atyp = 3 then atyp :: data.getD 4 0 :: (data.drop 5).take (data.getD 4 0 + 2)
  else atyp :: (data.drop 4).take 18

/-- Count `3 + addr_len`: how many request bytes the handler consumes before the
trailing payload (`r -= (3 + addr_len); buf += (3 + addr_len)`). -/
def ssConsumed (data : List Nat) : Nat :=
  let atyp := data.getD 3 0
  if atyp = 1 then 10 else if atyp = 3 then 7 + data.getD 4 0 else 22

/-- The shadowsocks address header as the spec words it:
`atyp (1) || addr (variable) || port (2)`, with `addr` 4 bytes for atyp=1,
16 bytes for atyp=4, and `len(1) || name(len)` for atyp=3. -/
def specAddrHeader (data : List Nat) : List Nat :=
  let atyp := data.getD 3 0
  if atyp = 1 then atyp :: ((data.drop 4).take 4 ++ (data.drop 8).take 2)
  else if atyp = 3 then
    let n := data.getD 4 0
    atyp :: n :: ((data.drop 5).take n ++ (data.drop (5 + n)).take 2)
  else atyp :: ((data.drop 4).take 16 ++ (data.drop 20).take 2)

/-- The connect/send half of the stage-5 relay body of `server_recv_cb`
(local.c lines 250-326), entered with `chunk` (the possibly encrypted fresh
bytes) occupying `remote->buf` from offset 0: either initiate/continue the
upstream connect (plain `connect`, or the TCP-Fast-Open `sendto` whose
outcome is `so`), or send on the connected socket (outcome `so`). -/
def stage5Tail (so : SOut) (s : St) (chunk : List Nat) : St :=
  let n := chunk.length
  if s.connected = false then
    -- remote->buf_idx = 0; remote->buf_len = r;
    let s := { s with rIdx := 0, rLen := n }
    if s.fastOpen = false ∨ s.direct = true then
      -- connect(); stop inbound reads; arm upstream write; start timer
      { s with srOn := false, rsOn := true, sendTimerOn := true }
    else
      match so with
      | .serr .einprogress =>
          { s with rIdx := 0, rLen := n, srOn := false, rsOn := true }
      | .serr .enotconn =>
          -- fast open unsupported: clear the flag, then close and free
          closeAll { s with fastOpen := false }
      | .serr _ => closeAll s
      | .sent k =>
          -- counts above n cannot occur; take and the subtraction truncate
          let s := { s with upDelivered := s.upDelivered ++ chunk.take k }
          let s := if k < n then { s with rLen := n - k, rIdx := k } else s
          -- "Just connected": stop the connect timer, arm upstream reads
          { s with connected := true, sendTimerOn := false, rrOn := true }
  else
    match so with
    | .serr .eagain =>
        { s with rIdx := 0, rLen := n, srOn := false, rsOn := true }
    | .serr _ => closeAll s
    | .sent k =>
        let s := { s with upDelivered := s.upDelivered ++ chunk.take k }
        if k < n then
          { s with rLen := n - k, rIdx := k, srOn := false, rsOn := true }
        else s

/-- The stage-5 body proper: encrypt the fresh bytes in place unless
direct, record them on the expected stream, and hand over to the
connect/send logic. -/
def stage5Go (co : Cfg) (so : SOut) (s : St) (r : Nat) : St :=
  let plain := s.rMem.take r
  let chunk := if s.direct then plain else co.enc s.encIdx plain
  let s := if s.direct then s else { s with rMem := chunk, encIdx := s.encIdx + 1 }
  let s := { s with upExpected := s.upExpected ++ chunk }
  stage5Tail so s chunk

/-- The stage-1 handler of `server_recv_cb` (local.c lines 338-496) for a
request `data`, followed — as in the `while (1)` loop — by the stage-5 body
on the freshly filled remote buffer.  `am` is the access-list answer,
`cok` is `connect_to_remote` returning non-NULL, `rok` is the fake reply
being fully sent, `so` is the upstream send outcome of the stage-5 body. -/
def stage1Step (co : Cfg) (data : List Nat) (am cok rok : Bool) (so : SOut) (s : St) : St :=
  let cmd := data.getD 1 0
  if co.udprelay = true ∧ cmd = 3 then
    -- UDP associate: reply with the bound address, then tear down
    closeAll s
  else if cmd ≠ 1 then
    -- unsupported cmd: send {5, CMD_NOT_SUPPORTED, 0, 1} and tear down
    closeAll { s with errReply := some [5, 7, 0, 1] }
  else
    let atyp := data.getD 3 0
    if atyp = 1 ∨ atyp = 3 ∨ atyp = 4 then
      let header := ssAddrToSend data
      let trailing := data.drop (ssConsumed data)
      let s := { s with stage := 5 }
      if am = true ∧ (atyp = 1 ∨ atyp = 3) then
        if cok = false then
          -- remote->direct = 1 dereferences the NULL result
          { s with crashed := true }
        else
          -- new_remote zero-initializes the fresh remote endpoint
          let s := { s with hasRemote := true, direct := true, connected := false,
                            rrOn := false, rsOn := false, sendTimerOn := false,
                            recvTimerOn := false, rIdx := 0, rLen := 0,
                            rMem := trailing, firstUpPlain := some trailing }
          if rok = false then closeAll s
          else
            let s := { s with connectReply := some ([5, 0, 0, 1] ++ List.replicate 6 0) }
            stage5Go co so s trailing.length
      else
        if cok = false then closeAll s
        else
          let plain := header ++ trailing
          -- new_remote zero-initializes the fresh remote endpoint
          let s := { s with hasRemote := true, direct := false, connected := false,
                            rrOn := false, rsOn := false, sendTimerOn := false,
                            recvTimerOn := false, rIdx := 0, rLen := 0,
                            rMem := plain, firstUpPlain := some plain }
          if rok = false then closeAll s
          else
            let s := { s with connectReply := some ([5, 0, 0, 1] ++ List.replicate 6 0) }
            stage5Go co so s plain.length
    else
      -- unsupported address type: tear down
      closeAll s

/-- Model of `server_recv_cb` (local.c lines 195-498). -/
def serverRecvStep (co : Cfg) (ro : ROut) (am cok rok : Bool) (so : SOut) (s : St) : St :=
  if s.alive = true ∧ s.crashed = false ∧ s.srOn = true then
    match ro with
    | .closed => closeAll s
    | .rerr e => if e = .eagain then s else closeAll s
    | .bytes data =>
      if validChunk data then
        if s.stage = 5 then
          if s.hasRemote = false then closeAll s
          else
            let s := { s with rMem := data ++ s.rMem.drop data.length }
            stage5Go co so s data.length
        else if s.stage = 0 then
          -- send the method-select response {5, 0}, advance to stage 1
          { s with stage := 1 }
        else stage1Step co data am cok rok so s
      else s
  else s

/-- Model of `server_send_cb` (local.c lines 500-535). -/
def serverSendStep (so : SOut) (s : St) : St :=
  if s.alive = true ∧ s.crashed = false ∧ s.ssOn = true then
    if s.sLen = 0 then closeAll s
    else
      match so with
      | .serr e => if e = .eagain then s else closeAll s
      | .sent k =>
        if k < s.sLen then { s with sLen := s.sLen - k, sIdx := s.sIdx + k }
        else { s with sLen := 0, sIdx := 0, ssOn := false, rrOn := true }
  else s

/-- Model of `remote_recv_cb` (local.c lines 550-611).  The idle timer is restarted
(`ev_timer_again`) before the recv; the received bytes are decrypted unless
direct and immediately offered to the inbound socket. -/
def remoteRecvStep (co : Cfg) (ro : ROut) (so : SOut) (s : St) : St :=
  if s.alive = true ∧ s.crashed = false ∧ s.rrOn = true then
    match ro with
    | .closed => closeAll s
    | .rerr e => if e = .eagain then { s with recvTimerOn := true } else closeAll s
    | .bytes data =>
      if validChunk data then
        let s := { s with recvTimerOn := true,
                          upstreamBytesRead := s.upstreamBytesRead + data.length }
        let chunk := if s.direct then data else co.dec s.decIdx data
        let s := if s.direct then s else { s with decIdx := s.decIdx + 1 }
        match so with
        | .serr e =>
          if e = .eagain then
            { s with sLen := chunk.length, sIdx := 0, rrOn := false, ssOn := true }
          else closeAll s
        | .sent k =>
          if k < chunk.length then
            { s with sLen := chunk.length - k, sIdx := k, rrOn := false, ssOn := true }
          else s
      else s
  else s

/-- The data-sending half of `remote_send_cb` (local.c lines 649-673). -/
def rmtSendData (so : SOut) (s : St) : St :=
  match so with
  | .serr e => if e = .eagain then s else closeAll s
  | .sent k =>
    let s := { s with upDelivered := s.upDelivered ++ (s.rMem.drop s.rIdx).take k }
    if k < s.rLen then { s with rLen := s.rLen - k, rIdx := s.rIdx + k }
    else { s with rLen := 0, rIdx := 0, rsOn := false, srOn := true }

/-- Model of `remote_send_cb` (local.c lines 613-674): first complete the connect via
`getpeername` if needed, then drain the pending buffer. -/
def remoteSendStep (peerOk : Bool) (so : SOut) (s : St) : St :=
  if s.alive = true ∧ s.crashed = false ∧ s.rsOn = true then
    if s.connected = false then
      if peerOk = false then closeAll s
      else
        let s := { s with connected := true, sendTimerOn := false,
                          recvTimerOn := true, rrOn := true }
        if s.rLen = 0 then { s with rsOn := false, srOn := true }
        else rmtSendData so s
    else
      if s.rLen = 0 then closeAll s
      else rmtSendData so s
  else s

/-- Model of `remote_timeout_cb` (local.c lines 537-548). -/
def timerStep (s : St) : St :=
  if s.alive = true ∧ s.crashed = false ∧ (s.sendTimerOn = true ∨ s.recvTimerOn = true) then
    closeAll s
  else s

/-- One reactor dispatch. -/
def step (co : Cfg) (s : St) (ev : Ev) : St :=
  match ev with
  | .srvRecv ro am cok rok so => serverRecvStep co ro am cok rok so s
  | .srvSend so => serverSendStep so s
  | .rmtRecv ro so => remoteRecvStep co ro so s
  | .rmtSend pk so => remoteSendStep pk so s
  | .timerFire => timerStep s

/-- Run a sequence of callback invocations. -/
def run (co : Cfg) (s : St) (evs : List Ev) : St :=
  evs.foldl (step co) s

/-- Session state right after `accept_cb` and `new_server`: stage 0, only
the inbound read watcher armed, everything else zeroed.  `fo` is the
process-wide `fast_open` flag. -/
def init (fo : Bool) : St :=
  { alive := true, crashed := false, fastOpen := fo, stage := 0,
    srOn := true, ssOn := false, sIdx := 0, sLen := 0,
    hasRemote := false, direct := false, connected := false,
    rrOn := false, rsOn := false, sendTimerOn := false, recvTimerOn := false,
    rMem := [], rIdx := 0, rLen := 0, encIdx := 0, decIdx := 0,
    connectReply := none, errReply := none, firstUpPlain := none,
    upExpected := [], upDelivered := [], upstreamBytesRead := 0 }

/-- Reachability from a start state by some sequence of callbacks. -/
def Reach (co : Cfg) (s0 s : St) : Prop :=
  ∃ evs, run co s0 evs = s

/-! ### Invariant statements and concrete instantiations -/

/-! ### Concrete instantiations used in demonstrations and witnesses -/

/-- Concrete collaborator instance: UDP relay off, both cipher directions
the identity transform (the machine is parametric in the cipher, so the
bookkeeping facts demonstrated below are cipher-independent). -/
def cfgD : Cfg := { udprelay := false, enc := fun _ c => c, dec := fun _ c => c }

/-- Client greeting `05 01 00` while at stage 0. -/
def greetingEv : Ev := .srvRecv (.bytes [5, 1, 0]) false false false (.sent 0)

/-- SOCKS5 CONNECT to 127.0.0.1:80: `05 01 00 01 7F 00 00 01 00 50`. -/
def reqIPv4 : List Nat := [5, 1, 0, 1, 127, 0, 0, 1, 0, 80]

/-- TFO session: the first `sendto` accepts only 1 of 7 bytes, then the
client sends one more byte which the still-armed inbound reader picks up. -/
def trTfoShort : List Ev :=
  [greetingEv,
   .srvRecv (.bytes reqIPv4) false true true (.sent 1),
   .srvRecv (.bytes [99]) false true true (.sent 1)]

/-- TFO session stopped right after the short first `sendto`. -/
def trTfoShortStop : List Ev :=
  [greetingEv, .srvRecv (.bytes reqIPv4) false true true (.sent 1)]

/-- TFO session whose first `sendto` fails with ENOTCONN. -/
def trTfoEnotconn : List Ev :=
  [greetingEv, .srvRecv (.bytes reqIPv4) false true true (.serr .enotconn)]

/-- TFO session whose first `sendto` fails with EINPROGRESS. -/
def trTfoEinprogress : List Ev :=
  [greetingEv, .srvRecv (.bytes reqIPv4) false true true (.serr .einprogress)]

/-- Direct (access-list matched) session for which `connect_to_remote`
returns NULL (resolution failure). -/
def trDirectNull : List Ev :=
  [greetingEv, .srvRecv (.bytes reqIPv4) true false true (.sent 0)]

/-- Direct session: connect completes, then the upstream delivers 2 bytes of
which the inbound socket accepts only 1. -/
def trBothArmed : List Ev :=
  [greetingEv,
   .srvRecv (.bytes reqIPv4) true true true (.sent 0),
   .rmtSend true (.sent 0),
   .rmtRecv (.bytes [7, 8]) (.sent 1)]

/-- Contract of the cipher collaborator taken from its signature
`ss_encrypt(BUF_SIZE, buf, &len, ctx)`: output within the capacity handed
to it.  (Modelled from the spec: the cipher itself is outside local.c.) -/
def okCipher (f : Nat → List Nat → List Nat) : Prop :=
  ∀ i c, c.length ≤ BUFSZ → (f i c).length ≤ BUFSZ

/-- Buffer bookkeeping facts: `buf_idx + buf_len ≤ BUF_SIZE` and
`buf_idx = 0` whenever `buf_len = 0`, on both endpoints. -/
def InvB (s : St) : Prop :=
  s.sIdx + s.sLen ≤ BUFSZ ∧ s.rIdx + s.rLen ≤ BUFSZ ∧
  (s.sLen = 0 → s.sIdx = 0) ∧ (s.rLen = 0 → s.rIdx = 0)

/-- The synthesized SOCKS5 success reply. -/
def constReply : List Nat := [5, 0, 0, 1] ++ List.replicate 6 0

/-- Facts tying the CONNECT reply to the upstream watchers: the stage is
one of 0, 1, 5; any recorded CONNECT reply is the constant; bytes can only
have been read from the upstream after the constant reply was recorded;
watchers on the paired remote and the inbound write watcher exist only in
live stage-5 states; no such watcher is armed during the handshake. -/
def InvR (s : St) : Prop :=
  (s.stage = 0 ∨ s.stage = 1 ∨ s.stage = 5) ∧
  (s.connectReply = none ∨ s.connectReply = some constReply) ∧
  (0 < s.upstreamBytesRead → s.connectReply = some constReply) ∧
  (s.alive = true → s.crashed = false → s.stage = 5 → s.connectReply = some constReply) ∧
  (s.rrOn = true → s.alive = true ∧ s.crashed = false ∧ s.stage = 5) ∧
  (s.rsOn = true → s.alive = true ∧ s.crashed = false ∧ s.stage = 5) ∧
  (s.ssOn = true → s.alive = true ∧ s.crashed = false ∧ s.stage = 5) ∧
  (s.stage ≤ 1 → s.rrOn = false ∧ s.rsOn = false ∧ s.ssOn = false)

/-- Directional backpressure facts for sessions with TCP Fast Open
disabled: the process-wide flag stays clear; in live states a direction
holding residual bytes has the far-side write watcher armed and the
near-side read watcher disarmed; before connect completion nothing can
have been buffered toward the client; during the handshake both buffers
are empty and the remote is absent. -/
def InvF (s : St) : Prop :=
  (s.stage = 0 ∨ s.stage = 1 ∨ s.stage = 5) ∧
  s.fastOpen = false ∧
  (s.alive = true → s.crashed = false →
    ((0 < s.rLen → s.rsOn = true ∧ s.srOn = false) ∧
     (0 < s.sLen → s.ssOn = true ∧ s.rrOn = false) ∧
     (s.connected = false → s.rrOn = false ∧ s.ssOn = false ∧ s.sLen = 0) ∧
     (s.stage ≤ 1 → s.sLen = 0 ∧ s.rLen = 0 ∧ s.connected = false ∧ s.hasRemote = false ∧
       s.ssOn = false ∧ s.rrOn = false ∧ s.rsOn = false)))

/-- A session (TFO off) that has buffered the CONNECT payload and is
waiting for the upstream connect to complete. -/
def trPendingConnect : List Ev :=
  [greetingEv, .srvRecv (.bytes reqIPv4) false true true (.sent 0)]

/-- The canonical post-greeting state of a TFO-enabled session. -/
def stage1St : St := run cfgD (init true) [greetingEv]

/-- The canonical post-greeting state of a session without TFO. -/
def stage1StF : St := run cfgD (init false) [greetingEv]

/-- SOCKS5 BIND request `05 02 00 01 7F 00 00 01 00 50`. -/
def reqBind : List Nat := [5, 2, 0, 1, 127, 0, 0, 1, 0, 80]

/-- Spec scenario request: CONNECT to a domain, `05 01 00 03 09` followed
by name bytes and port `01 BB`. -/
def req3 : List Nat := [5, 1, 0, 3, 9, 101, 120, 97, 109, 112, 108, 101, 46, 99, 111, 109, 1, 187]

/-! ### The address header built by the code matches the wording of the spec -/

/-- The single memcpy of `addr` and `port` done by the handler assembles
exactly the `atyp || addr || port` layout the spec describes. -/
theorem ssAddr_eq_spec (data : List Nat) : ssAddrToSend data = specAddrHeader data := by
  unfold ssAddrToSend specAddrHeader
  by_cases h1 : data.getD 3 0 = 1
  · rw [if_pos h1, if_pos h1]
    show data.getD 3 0 :: (data.drop 4).take (4 + 2) = _
    rw [List.take_add, List.drop_drop]
  · by_cases h3 : data.getD 3 0 = 3
    · rw [if_neg h1, if_neg h1, if_pos h3, if_pos h3, List.take_add, List.drop_drop]
    · rw [if_neg h1, if_neg h1, if_neg h3, if_neg h3]
      show data.getD 3 0 :: (data.drop 4).take (16 + 2) = _
      rw [List.take_add, List.drop_drop]

/-- The stage-5 body never touches the handshake ghost fields. -/
theorem stage5Go_ghost (co : Cfg) (so : SOut) (s : St) (r : Nat) :
    (stage5Go co so s r).firstUpPlain = s.firstUpPlain ∧
    (stage5Go co so s r).connectReply = s.connectReply ∧
    (stage5Go co so s r).errReply = s.errReply ∧
    (stage5Go co so s r).stage = s.stage ∧
    (stage5Go co so s r).crashed = s.crashed := by
  cases so with
  | sent k =>
    dsimp only [stage5Go, stage5Tail, closeAll]
    split_ifs <;> exact ⟨rfl, rfl, rfl, rfl, rfl⟩
  | serr e =>
    cases e <;>
      (dsimp only [stage5Go, stage5Tail, closeAll]; split_ifs <;> exact ⟨rfl, rfl, rfl, rfl, rfl⟩)

/-- C2: for every non-direct CONNECT session, the first upstream payload
bytes before encryption are exactly the shadowsocks address header
`atyp || addr || port` (4 address bytes for atyp=1, 16 for atyp=4,
`len || name` for atyp=3) immediately followed by the request bytes that
trailed the address; for direct sessions no header is emitted. -/
theorem c2_first_upstream_payload (co : Cfg) (s : St) (data : List Nat) (am : Bool) (so : SOut)
    (hAlive : s.alive = true) (hCr : s.crashed = false) (hSr : s.srOn = true)
    (hStage : s.stage = 1)
    (hValid : validChunk data) (hCmd : data.getD 1 0 = 1)
    (hAtyp : data.getD 3 0 = 1 ∨ data.getD 3 0 = 3 ∨ data.getD 3 0 = 4) :
    (serverRecvStep co (.bytes data) am true true so s).firstUpPlain =
      some ((if am = true ∧ (data.getD 3 0 = 1 ∨ data.getD 3 0 = 3) then []
             else specAddrHeader data) ++ data.drop (ssConsumed data)) := by
  dsimp only [serverRecvStep]
  rw [if_pos ⟨hAlive, hCr, hSr⟩, if_pos hValid,
      if_neg (by rw [hStage]; decide), if_neg (by rw [hStage]; decide)]
  dsimp only [stage1Step]
  rw [if_neg (by rw [hCmd]; simp), if_neg (by rw [hCmd]; simp), if_pos hAtyp]
  by_cases hD : am = true ∧ (data.getD 3 0 = 1 ∨ data.getD 3 0 = 3)
  · rw [if_pos hD, if_pos hD]
    rw [if_neg (by decide), if_neg (by decide), (stage5Go_ghost co so _ _).1]
    rfl
  · rw [if_neg hD, if_neg hD]
    rw [if_neg (by decide), if_neg (by decide), (stage5Go_ghost co so _ _).1,
      ssAddr_eq_spec]

/-! ### Demonstrations on the TCP-Fast-Open short-send path -/

/-- C1: within one session direction the delivered byte stream can diverge
from the (transformed) read stream.  On a TFO session whose first `sendto`
accepts 1 of the 7 header bytes, the code leaves the inbound read watcher
armed and never arms the upstream write watcher (local.c lines 288-296), so
the next inbound chunk overwrites and overtakes the 6 residual bytes: the
upstream receives `[1, 99]` although the transformed read stream is
`[1, 127, 0, 0, 1, 0, 80, 99]` — bytes are dropped and overtaken, against
the claimed ordering guarantee. -/
theorem c1_tfo_short_send_drops_bytes :
    (run cfgD (init true) trTfoShort).upDelivered = [1, 99] ∧
    (run cfgD (init true) trTfoShort).upExpected = [1, 127, 0, 0, 1, 0, 80, 99] ∧
    (run cfgD (init true) trTfoShort).upDelivered ≠
      (run cfgD (init true) trTfoShort).upExpected.take 2 ∧
    (run cfgD (init true) trTfoShort).alive = true := by
  decide

/-- C6: after a TFO first `sendto` that accepts n=1 of len=7 bytes, exactly
len−n = 6 residual bytes are retained at offset n = 1 (the first half of
the claim holds), but the upstream write watcher is NOT armed and the
inbound read watcher is NOT stopped (local.c lines 288-296 set only
`buf_len`/`buf_idx` and then arm the upstream read watcher), so no upstream
write-ready event can deliver the residual and new inbound bytes can be
read first — against the second half of the claim. -/
theorem c6_tfo_residual_never_flushed :
    (run cfgD (init true) trTfoShortStop).rIdx = 1 ∧
    (run cfgD (init true) trTfoShortStop).rLen = 6 ∧
    ((run cfgD (init true) trTfoShortStop).rMem.drop 1).take 6 = [127, 0, 0, 1, 0, 80] ∧
    (run cfgD (init true) trTfoShortStop).rsOn = false ∧
    (run cfgD (init true) trTfoShortStop).srOn = true ∧
    (run cfgD (init true) trTfoShortStop).connected = true ∧
    (run cfgD (init true) trTfoShortStop).alive = true := by
  decide

/-- C5 counterexample: when the TFO first `sendto` fails with ENOTCONN the
session does NOT continue via the standard connect path — local.c lines
276-287 clear `fast_open` and then close and free both endpoints. -/
theorem c5_counterexample :
    (run cfgD (init true) trTfoEnotconn).alive = false ∧
    (run cfgD (init true) trTfoEnotconn).fastOpen = false := by
  decide

/-- C5 (amended): a TFO first `sendto` failing with ENOTCONN clears the
process-wide fast-open flag — so later connect attempts take the ordinary
path — and tears the current session down. -/
theorem c5_amended (co : Cfg) (s : St) (data : List Nat)
    (hAlive : s.alive = true) (hCr : s.crashed = false) (hSr : s.srOn = true)
    (hStage : s.stage = 1) (hFo : s.fastOpen = true)
    (hValid : validChunk data) (hCmd : data.getD 1 0 = 1)
    (hAtyp : data.getD 3 0 = 1 ∨ data.getD 3 0 = 3 ∨ data.getD 3 0 = 4) :
    (serverRecvStep co (.bytes data) false true true (.serr .enotconn) s).fastOpen = false ∧
    (serverRecvStep co (.bytes data) false true true (.serr .enotconn) s).alive = false := by
  dsimp only [serverRecvStep]
  rw [if_pos ⟨hAlive, hCr, hSr⟩, if_pos hValid,
      if_neg (by rw [hStage]; decide), if_neg (by rw [hStage]; decide)]
  dsimp only [stage1Step]
  rw [if_neg (by rw [hCmd]; simp), if_neg (by rw [hCmd]; simp), if_pos hAtyp,
      if_neg (by simp), if_neg (by decide), if_neg (by decide)]
  rw [hFo]
  exact ⟨rfl, rfl⟩

/-- C7 counterexample: on the TFO first `sendto` failing with EINPROGRESS,
the upstream connect timer is NOT started (local.c lines 269-275 only store
the residual and swap the watchers, unlike the non-TFO path at lines
254-262 which also runs `ev_timer_start`), although the session does keep
the buffered bytes pending with upstream write-readiness armed. -/
theorem c7_counterexample :
    (run cfgD (init true) trTfoEinprogress).sendTimerOn = false ∧
    (run cfgD (init true) trTfoEinprogress).alive = true ∧
    (run cfgD (init true) trTfoEinprogress).rsOn = true := by
  decide

/-- C7 (amended): on EINPROGRESS from the TFO first `sendto`, the residual
`(idx = 0, len = r)` is stored, inbound reads are suspended, upstream
write-readiness is armed and the buffered bytes remain pending (none
delivered) — but, unlike the non-TFO connect path, the upstream connect
timer is NOT started. -/
theorem c7_amended (co : Cfg) (s : St) (data : List Nat)
    (hAlive : s.alive = true) (hCr : s.crashed = false) (hSr : s.srOn = true)
    (hStage : s.stage = 1) (hFo : s.fastOpen = true)
    (hValid : validChunk data) (hCmd : data.getD 1 0 = 1)
    (hAtyp : data.getD 3 0 = 1 ∨ data.getD 3 0 = 3 ∨ data.getD 3 0 = 4) :
    (serverRecvStep co (.bytes data) false true true (.serr .einprogress) s).rIdx = 0 ∧
    (serverRecvStep co (.bytes data) false true true (.serr .einprogress) s).rLen =
      (co.enc s.encIdx (ssAddrToSend data ++ data.drop (ssConsumed data))).length ∧
    (serverRecvStep co (.bytes data) false true true (.serr .einprogress) s).rMem =
      co.enc s.encIdx (ssAddrToSend data ++ data.drop (ssConsumed data)) ∧
    (serverRecvStep co (.bytes data) false true true (.serr .einprogress) s).srOn = false ∧
    (serverRecvStep co (.bytes data) false true true (.serr .einprogress) s).rsOn = true ∧
    (serverRecvStep co (.bytes data) false true true (.serr .einprogress) s).sendTimerOn = false ∧
    (serverRecvStep co (.bytes data) false true true (.serr .einprogress) s).upDelivered =
      s.upDelivered ∧
    (serverRecvStep co (.bytes data) false true true (.serr .einprogress) s).alive = true := by
  dsimp only [serverRecvStep]
  rw [if_pos ⟨hAlive, hCr, hSr⟩, if_pos hValid,
      if_neg (by rw [hStage]; decide), if_neg (by rw [hStage]; decide)]
  dsimp only [stage1Step]
  rw [if_neg (by rw [hCmd]; simp), if_neg (by rw [hCmd]; simp), if_pos hAtyp,
      if_neg (by simp), if_neg (by decide), if_neg (by decide)]
  rw [hFo]
  dsimp only [stage5Go, stage5Tail]
  rw [List.take_length]
  exact ⟨rfl, rfl, rfl, rfl, rfl, rfl, rfl, hAlive⟩

/-- C10 counterexample: a CONNECT whose destination matches the access list
but whose `connect_to_remote` returns NULL reaches the NULL dereference
`remote->direct = 1` (local.c line 436 runs before the NULL check at line
444), rather than being closed and freed cleanly. -/
theorem c10_counterexample :
    (run cfgD (init false) trDirectNull).crashed = true := by
  decide

/-- C10 (amended): when `connect_to_remote` returns NULL, only the
non-direct branch reaches the NULL check and closes and frees the session
safely; in the direct (access-list matched) branch the NULL remote pointer
is dereferenced by `remote->direct = 1` before the check. -/
theorem c10_amended (co : Cfg) (s : St) (data : List Nat) (am : Bool) (rok : Bool) (so : SOut)
    (hAlive : s.alive = true) (hCr : s.crashed = false) (hSr : s.srOn = true)
    (hStage : s.stage = 1)
    (hValid : validChunk data) (hCmd : data.getD 1 0 = 1)
    (hAtyp : data.getD 3 0 = 1 ∨ data.getD 3 0 = 3 ∨ data.getD 3 0 = 4) :
    (am = true ∧ (data.getD 3 0 = 1 ∨ data.getD 3 0 = 3) →
      (serverRecvStep co (.bytes data) am false rok so s).crashed = true) ∧
    (¬ (am = true ∧ (data.getD 3 0 = 1 ∨ data.getD 3 0 = 3)) →
      (serverRecvStep co (.bytes data) am false rok so s).crashed = false ∧
      (serverRecvStep co (.bytes data) am false rok so s).alive = false) := by
  dsimp only [serverRecvStep]
  rw [if_pos ⟨hAlive, hCr, hSr⟩, if_pos hValid,
      if_neg (by rw [hStage]; decide), if_neg (by rw [hStage]; decide)]
  dsimp only [stage1Step]
  rw [if_neg (by rw [hCmd]; simp), if_neg (by rw [hCmd]; simp), if_pos hAtyp]
  constructor
  · intro hD
    rw [if_pos hD, if_pos rfl]
  · intro hD
    rw [if_neg hD, if_pos rfl]
    exact ⟨hCr, rfl⟩

/-- C4 counterexample: the read-watcher and the write-watcher of the same
(inbound) socket CAN be simultaneously armed.  In relay, the inbound read
watcher stays armed while `remote_recv_cb` suffers a short send to the
client and arms the inbound write watcher (local.c lines 604-609 stop only
the upstream read watcher). -/
theorem c4_counterexample :
    (run cfgD (init false) trBothArmed).srOn = true ∧
    (run cfgD (init false) trBothArmed).ssOn = true ∧
    (run cfgD (init false) trBothArmed).alive = true := by
  decide

/-- C8: a stage-1 request whose cmd is neither 1 (CONNECT) nor 3 with UDP
relay enabled gets the 4-byte reply `05 07 00 01` (ver=5,
rep=CMD_NOT_SUPPORTED, rsv=0, atyp=1) and the session is torn down.
SVERSION and CMD_NOT_SUPPORTED are the constants 5 and 7 of socks5.h. -/
theorem c8_unsupported_cmd (co : Cfg) (s : St) (data : List Nat) (am cok rok : Bool) (so : SOut)
    (hAlive : s.alive = true) (hCr : s.crashed = false) (hSr : s.srOn = true)
    (hStage : s.stage = 1)
    (hValid : validChunk data) (hCmd : data.getD 1 0 ≠ 1)
    (hUdp : ¬ (co.udprelay = true ∧ data.getD 1 0 = 3)) :
    (serverRecvStep co (.bytes data) am cok rok so s).errReply = some [5, 7, 0, 1] ∧
    (serverRecvStep co (.bytes data) am cok rok so s).alive = false := by
  dsimp only [serverRecvStep]
  rw [if_pos ⟨hAlive, hCr, hSr⟩, if_pos hValid,
      if_neg (by rw [hStage]; decide), if_neg (by rw [hStage]; decide)]
  dsimp only [stage1Step]
  rw [if_neg hUdp, if_pos hCmd]
  exact ⟨rfl, rfl⟩

/-! ### Buffer bookkeeping invariant (claim C9) -/

/-- Bytes of a list of bytes are below 256 at every position. -/
theorem getD_lt_of_all {l : List Nat} (h : l.all (fun b => b < 256) = true) (i : Nat) :
    l.getD i 0 < 256 := by
  induction l generalizing i with
  | nil => simp [List.getD]
  | cons a t ih =>
    rw [List.all_cons, Bool.and_eq_true] at h
    cases i with
    | zero => simpa using h.1
    | succ j => simpa using ih h.2 j

theorem invB_closeAll (s : St) (h : InvB s) : InvB (closeAll s) := h

theorem invB_stage5Tail (so : SOut) (s : St) (c : List Nat) (hc : c.length ≤ BUFSZ)
    (hB : InvB s) : InvB (stage5Tail so s c) := by
  obtain ⟨hs1, hs2, hs3, hs4⟩ := hB
  cases so with
  | sent k =>
    dsimp only [stage5Tail, closeAll]
    split_ifs <;> refine ⟨?_, ?_, ?_, ?_⟩ <;> dsimp only <;> omega
  | serr e =>
    cases e <;> (dsimp only [stage5Tail, closeAll]; split_ifs <;>
      refine ⟨?_, ?_, ?_, ?_⟩ <;> dsimp only <;> omega)

theorem invB_stage5Go (co : Cfg) (hE : okCipher co.enc) (so : SOut) (s : St) (r : Nat)
    (hr : r ≤ BUFSZ) (hB : InvB s) : InvB (stage5Go co so s r) := by
  have hplain : (s.rMem.take r).length ≤ BUFSZ := by
    rw [List.length_take]; omega
  dsimp only [stage5Go]
  by_cases hd : s.direct = true <;> simp only [hd, Bool.false_eq_true, if_true, if_false] <;>
    apply invB_stage5Tail
  · exact hplain
  · exact hB
  · exact hE _ _ hplain
  · exact hB

theorem plainLen_le (data : List Nat) (h2048 : data.length ≤ BUFSZ)
    (hbytes : data.all (fun b => b < 256) = true) :
    (ssAddrToSend data ++ data.drop (ssConsumed data)).length ≤ BUFSZ := by
  have hn : data.getD 4 0 < 256 := getD_lt_of_all hbytes 4
  have hB : BUFSZ = 2048 := rfl
  rw [List.length_append, List.length_drop]
  simp only [ssAddrToSend, ssConsumed]
  split_ifs <;>
    simp only [List.length_cons, List.length_take, List.length_drop] <;> omega

theorem invB_stage1Step (co : Cfg) (hE : okCipher co.enc) (data : List Nat)
    (am cok rok : Bool) (so : SOut) (s : St)
    (hValid : validChunk data) (hB : InvB s) : InvB (stage1Step co data am cok rok so s) := by
  obtain ⟨hne, hlen, hbytes⟩ := hValid
  obtain ⟨hs1, hs2, hs3, hs4⟩ := hB
  have htr : (data.drop (ssConsumed data)).length ≤ BUFSZ := by
    rw [List.length_drop]; omega
  dsimp only [stage1Step]
  split_ifs with h1 h2 h3 h4 h5 h6 h7
  · exact ⟨hs1, hs2, hs3, hs4⟩
  · exact ⟨hs1, hs2, hs3, hs4⟩
  · -- direct branch, connect_to_remote NULL: crash
    exact ⟨hs1, hs2, hs3, hs4⟩
  · -- direct branch, reply failed: close
    exact ⟨hs1, (by decide : (0:Nat) + 0 ≤ BUFSZ), hs3, fun _ => rfl⟩
  · -- direct branch: relay body on the trailing bytes
    exact invB_stage5Go co hE so _ _ htr ⟨hs1, (by decide : (0:Nat) + 0 ≤ BUFSZ), hs3, fun _ => rfl⟩
  · -- non-direct, connect_to_remote NULL: clean close
    exact ⟨hs1, hs2, hs3, hs4⟩
  · -- non-direct, reply failed: close
    exact ⟨hs1, (by decide : (0:Nat) + 0 ≤ BUFSZ), hs3, fun _ => rfl⟩
  · -- non-direct: relay body on header ++ trailing
    exact invB_stage5Go co hE so _ _ (plainLen_le data hlen hbytes)
      ⟨hs1, (by decide : (0:Nat) + 0 ≤ BUFSZ), hs3, fun _ => rfl⟩
  · exact ⟨hs1, hs2, hs3, hs4⟩

theorem invB_serverRecv (co : Cfg) (hE : okCipher co.enc) (ro : ROut)
    (am cok rok : Bool) (so : SOut) (s : St)
    (hB : InvB s) : InvB (serverRecvStep co ro am cok rok so s) := by
  cases ro with
  | closed => dsimp only [serverRecvStep]; split_ifs <;> exact hB
  | rerr e => dsimp only [serverRecvStep]; split_ifs <;> exact hB
  | bytes data =>
    dsimp only [serverRecvStep]
    split_ifs with hg hv h5 hnr h0
    · exact hB
    · exact invB_stage5Go co hE so _ _ hv.2.1 hB
    · exact hB
    · exact invB_stage1Step co hE data am cok rok so s hv hB
    · exact hB
    · exact hB

theorem invB_serverSend (so : SOut) (s : St) (hB : InvB s) : InvB (serverSendStep so s) := by
  obtain ⟨hs1, hs2, hs3, hs4⟩ := hB
  cases so with
  | sent k =>
    dsimp only [serverSendStep, closeAll]
    split_ifs <;> refine ⟨?_, ?_, ?_, ?_⟩ <;> dsimp only <;> omega
  | serr e =>
    dsimp only [serverSendStep, closeAll]
    split_ifs <;> exact ⟨hs1, hs2, hs3, hs4⟩

theorem invB_remoteRecv (co : Cfg) (hD : okCipher co.dec) (ro : ROut) (so : SOut) (s : St)
    (hB : InvB s) : InvB (remoteRecvStep co ro so s) := by
  obtain ⟨hs1, hs2, hs3, hs4⟩ := hB
  cases ro with
  | closed => dsimp only [remoteRecvStep, closeAll]; split_ifs <;> exact ⟨hs1, hs2, hs3, hs4⟩
  | rerr e => dsimp only [remoteRecvStep, closeAll]; split_ifs <;> exact ⟨hs1, hs2, hs3, hs4⟩
  | bytes data =>
    by_cases hv : validChunk data
    · have hc : (if s.direct = true then data else co.dec s.decIdx data).length ≤ BUFSZ := by
        split_ifs
        · exact hv.2.1
        · exact hD _ _ hv.2.1
      cases so with
      | sent k =>
        dsimp only [remoteRecvStep, closeAll]
        by_cases hd : s.direct = true <;>
          simp only [hd, Bool.false_eq_true, if_true, if_false] at hc ⊢ <;>
          split_ifs <;> refine ⟨?_, ?_, ?_, ?_⟩ <;> dsimp only <;> omega
      | serr e =>
        dsimp only [remoteRecvStep, closeAll]
        by_cases hd : s.direct = true <;>
          simp only [hd, Bool.false_eq_true, if_true, if_false] at hc ⊢ <;>
          split_ifs <;> refine ⟨?_, ?_, ?_, ?_⟩ <;> dsimp only <;> omega
    · dsimp only [remoteRecvStep, closeAll]
      split_ifs <;> exact ⟨hs1, hs2, hs3, hs4⟩

theorem invB_rmtSendData (so : SOut) (s : St) (hB : InvB s) : InvB (rmtSendData so s) := by
  obtain ⟨hs1, hs2, hs3, hs4⟩ := hB
  cases so with
  | sent k =>
    dsimp only [rmtSendData, closeAll]
    split_ifs <;> refine ⟨?_, ?_, ?_, ?_⟩ <;> dsimp only <;> omega
  | serr e =>
    dsimp only [rmtSendData, closeAll]
    split_ifs <;> exact ⟨hs1, hs2, hs3, hs4⟩

theorem invB_remoteSend (pk : Bool) (so : SOut) (s : St) (hB : InvB s) :
    InvB (remoteSendStep pk so s) := by
  dsimp only [remoteSendStep, closeAll]
  split_ifs with hg h1 h2 h3 h4
  · exact hB
  · obtain ⟨hs1, hs2, hs3, hs4⟩ := hB
    exact ⟨hs1, hs2, hs3, hs4⟩
  · exact invB_rmtSendData so _ hB
  · obtain ⟨hs1, hs2, hs3, hs4⟩ := hB
    exact ⟨hs1, hs2, hs3, hs4⟩
  · exact invB_rmtSendData so _ hB
  · exact hB

theorem invB_timer (s : St) (hB : InvB s) : InvB (timerStep s) := by
  dsimp only [timerStep, closeAll]
  split_ifs <;> exact hB

theorem invB_step (co : Cfg) (hE : okCipher co.enc) (hD : okCipher co.dec)
    (s : St) (ev : Ev) (hB : InvB s) : InvB (step co s ev) := by
  cases ev with
  | srvRecv ro am cok rok so => exact invB_serverRecv co hE ro am cok rok so s hB
  | srvSend so => exact invB_serverSend so s hB
  | rmtRecv ro so => exact invB_remoteRecv co hD ro so s hB
  | rmtSend pk so => exact invB_remoteSend pk so s hB
  | timerFire => exact invB_timer s hB

theorem invB_run (co : Cfg) (hE : okCipher co.enc) (hD : okCipher co.dec)
    (s : St) (evs : List Ev) (hB : InvB s) : InvB (run co s evs) := by
  induction evs generalizing s with
  | nil => exact hB
  | cons ev t ih => exact ih _ (invB_step co hE hD s ev hB)

/-- C9: in every reachable state, the buffer bookkeeping of each endpoint
satisfies `buf_idx + buf_len ≤ BUF_SIZE` (2048) and `buf_idx = 0` whenever
`buf_len = 0`; every store and drain of a residual preserves this.  The
cipher collaborator is assumed to keep its output within the `BUF_SIZE`
capacity it is handed. -/
theorem c9_buffer_bookkeeping (co : Cfg) (hE : okCipher co.enc) (hD : okCipher co.dec)
    (fo : Bool) (s : St) (hr : Reach co (init fo) s) :
    s.sIdx + s.sLen ≤ 2048 ∧ s.rIdx + s.rLen ≤ 2048 ∧
    (s.sLen = 0 → s.sIdx = 0) ∧ (s.rLen = 0 → s.rIdx = 0) := by
  obtain ⟨evs, rfl⟩ := hr
  exact invB_run co hE hD _ evs
    ⟨(by decide : (0:Nat) + 0 ≤ BUFSZ), (by decide : (0:Nat) + 0 ≤ BUFSZ),
     fun _ => rfl, fun _ => rfl⟩

/-- The identity cipher respects the capacity contract. -/
theorem cfgD_okCipher : okCipher cfgD.enc ∧ okCipher cfgD.dec :=
  ⟨fun _ _ h => h, fun _ _ h => h⟩

/-- C9 witness: the bookkeeping facts evaluated on a concrete reachable
state that holds a residual on the inbound socket. -/
theorem c9_witness :
    Reach cfgD (init false) (run cfgD (init false) trBothArmed) ∧
    ((run cfgD (init false) trBothArmed).sIdx + (run cfgD (init false) trBothArmed).sLen ≤ 2048 ∧
     (run cfgD (init false) trBothArmed).rIdx + (run cfgD (init false) trBothArmed).rLen ≤ 2048 ∧
     ((run cfgD (init false) trBothArmed).sLen = 0 → (run cfgD (init false) trBothArmed).sIdx = 0) ∧
     ((run cfgD (init false) trBothArmed).rLen = 0 → (run cfgD (init false) trBothArmed).rIdx = 0)) :=
  ⟨⟨trBothArmed, rfl⟩,
   c9_buffer_bookkeeping cfgD cfgD_okCipher.1 cfgD_okCipher.2 false _ ⟨trBothArmed, rfl⟩⟩

/-! ### Reply ordering invariant (claim C3) -/

/-- A closed session keeps InvR: all watchers are disarmed. -/
theorem invR_closed (s : St) (r0 : s.stage = 0 ∨ s.stage = 1 ∨ s.stage = 5)
    (r1 : s.connectReply = none ∨ s.connectReply = some constReply)
    (r2 : 0 < s.upstreamBytesRead → s.connectReply = some constReply) :
    InvR (closeAll s) := by
  unfold InvR closeAll
  dsimp only
  exact ⟨r0, r1, r2, fun h => absurd h (show ¬(false = true) by decide), fun h => absurd h (show ¬(false = true) by decide), fun h => absurd h (show ¬(false = true) by decide),
         fun h => absurd h (show ¬(false = true) by decide), fun _ => ⟨rfl, rfl, rfl⟩⟩

theorem invR_stage5Tail (so : SOut) (s : St) (c : List Nat)
    (ha : s.alive = true) (hc : s.crashed = false) (h5 : s.stage = 5)
    (hcr : s.connectReply = some constReply) : InvR (stage5Tail so s c) := by
  cases so with
  | sent k =>
    dsimp only [stage5Tail, closeAll]
    split_ifs <;>
      refine ⟨Or.inr (Or.inr h5), Or.inr hcr, fun _ => hcr, fun _ _ _ => hcr, ?_, ?_, ?_, ?_⟩ <;>
      first
        | exact fun _ => ⟨ha, hc, h5⟩
        | exact fun h => absurd h (show ¬(false = true) by decide)
        | exact fun _ => ⟨rfl, rfl, rfl⟩
        | exact fun h => absurd (h5 ▸ h) (by decide)
  | serr e =>
    cases e <;> (dsimp only [stage5Tail, closeAll]; split_ifs <;>
      refine ⟨Or.inr (Or.inr h5), Or.inr hcr, fun _ => hcr, fun _ _ _ => hcr, ?_, ?_, ?_, ?_⟩ <;>
      first
        | exact fun _ => ⟨ha, hc, h5⟩
        | exact fun h => absurd h (show ¬(false = true) by decide)
        | exact fun _ => ⟨rfl, rfl, rfl⟩
        | exact fun h => absurd (h5 ▸ h) (by decide))

theorem invR_stage5Go (co : Cfg) (so : SOut) (s : St) (r : Nat)
    (ha : s.alive = true) (hc : s.crashed = false) (h5 : s.stage = 5)
    (hcr : s.connectReply = some constReply) : InvR (stage5Go co so s r) := by
  dsimp only [stage5Go]
  by_cases hd : s.direct = true <;>
    simp only [hd, Bool.false_eq_true, if_true, if_false] <;>
    exact invR_stage5Tail so _ _ ha hc h5 hcr

theorem invR_stage1Step (co : Cfg) (data : List Nat) (am cok rok : Bool) (so : SOut) (s : St)
    (ha : s.alive = true) (hc : s.crashed = false) (h1 : s.stage = 1)
    (hR : InvR s) : InvR (stage1Step co data am cok rok so s) := by
  obtain ⟨r0, r1, r2, r3, r4, r5, r6, r7⟩ := hR
  obtain ⟨w1, w2, w3⟩ := r7 (by omega)
  dsimp only [stage1Step]
  split_ifs with g1 g2 g3 g4 g5 g6 g7 g8
  · exact invR_closed s r0 r1 r2
  · exact invR_closed _ r0 r1 r2
  · -- direct branch with NULL remote: crash
    refine ⟨Or.inr (Or.inr rfl), r1, r2, fun _ h => absurd h (show ¬(true = false) by decide),
            ?_, ?_, ?_, fun h => absurd h (show ¬((5:Nat) ≤ 1) by decide)⟩
    · exact fun h => absurd (w1 ▸ h) (show ¬(false = true) by decide)
    · exact fun h => absurd (w2 ▸ h) (show ¬(false = true) by decide)
    · exact fun h => absurd (w3 ▸ h) (show ¬(false = true) by decide)
  · exact invR_closed _ (Or.inr (Or.inr rfl)) r1 r2
  · exact invR_stage5Go co so _ _ ha hc rfl rfl
  · exact invR_closed _ (Or.inr (Or.inr rfl)) r1 r2
  · exact invR_closed _ (Or.inr (Or.inr rfl)) r1 r2
  · exact invR_stage5Go co so _ _ ha hc rfl rfl
  · exact invR_closed s r0 r1 r2

theorem invR_serverRecv (co : Cfg) (ro : ROut) (am cok rok : Bool) (so : SOut) (s : St)
    (hR : InvR s) : InvR (serverRecvStep co ro am cok rok so s) := by
  obtain ⟨r0, r1, r2, r3, r4, r5, r6, r7⟩ := hR
  cases ro with
  | closed =>
    dsimp only [serverRecvStep]
    split_ifs <;>
      first
        | exact invR_closed s r0 r1 r2
        | exact ⟨r0, r1, r2, r3, r4, r5, r6, r7⟩
  | rerr e =>
    dsimp only [serverRecvStep]
    split_ifs <;>
      first
        | exact invR_closed s r0 r1 r2
        | exact ⟨r0, r1, r2, r3, r4, r5, r6, r7⟩
  | bytes data =>
    dsimp only [serverRecvStep]
    split_ifs with hg hv h5 hnr h0
    · exact invR_closed s r0 r1 r2
    · exact invR_stage5Go co so _ _ hg.1 hg.2.1 h5 (r3 hg.1 hg.2.1 h5)
    · -- stage 0: greeting, advance to stage 1
      obtain ⟨w1, w2, w3⟩ := r7 (by omega)
      refine ⟨Or.inr (Or.inl rfl), r1, r2, fun _ _ h => absurd h (show ¬((1:Nat) = 5) by decide),
              ?_, ?_, ?_,
              fun _ => ⟨w1, w2, w3⟩⟩
      · exact fun h => absurd (w1 ▸ h) (show ¬(false = true) by decide)
      · exact fun h => absurd (w2 ▸ h) (show ¬(false = true) by decide)
      · exact fun h => absurd (w3 ▸ h) (show ¬(false = true) by decide)
    · -- stage 1: the SOCKS5 request handler
      have h1 : s.stage = 1 := by
        rcases r0 with h | h | h
        · exact absurd h h0
        · exact h
        · exact absurd h h5
      exact invR_stage1Step co data am cok rok so s hg.1 hg.2.1 h1
        ⟨r0, r1, r2, r3, r4, r5, r6, r7⟩
    · exact ⟨r0, r1, r2, r3, r4, r5, r6, r7⟩
    · exact ⟨r0, r1, r2, r3, r4, r5, r6, r7⟩

theorem invR_serverSend (so : SOut) (s : St) (hR : InvR s) : InvR (serverSendStep so s) := by
  obtain ⟨r0, r1, r2, r3, r4, r5, r6, r7⟩ := hR
  cases so with
  | sent k =>
    dsimp only [serverSendStep, closeAll]
    split_ifs with hg h0 hk
    · exact invR_closed s r0 r1 r2
    · exact ⟨r0, r1, r2, r3, r4, r5, r6, r7⟩
    · -- full drain: disarm the inbound writer, arm the upstream reader
      have h5 : s.stage = 5 := (r6 hg.2.2).2.2
      exact ⟨r0, r1, r2, r3, fun _ => ⟨hg.1, hg.2.1, h5⟩, r5,
             fun h => absurd h (show ¬(false = true) by decide),
             fun h => absurd h (show ¬(s.stage ≤ 1) by omega)⟩
    · exact ⟨r0, r1, r2, r3, r4, r5, r6, r7⟩
  | serr e =>
    dsimp only [serverSendStep, closeAll]
    split_ifs <;>
      first
        | exact invR_closed s r0 r1 r2
        | exact ⟨r0, r1, r2, r3, r4, r5, r6, r7⟩

theorem invR_remoteRecv (co : Cfg) (ro : ROut) (so : SOut) (s : St)
    (hR : InvR s) : InvR (remoteRecvStep co ro so s) := by
  obtain ⟨r0, r1, r2, r3, r4, r5, r6, r7⟩ := hR
  cases ro with
  | closed =>
    dsimp only [remoteRecvStep]
    split_ifs <;>
      first
        | exact invR_closed s r0 r1 r2
        | exact ⟨r0, r1, r2, r3, r4, r5, r6, r7⟩
  | rerr e =>
    dsimp only [remoteRecvStep]
    split_ifs <;>
      first
        | exact invR_closed s r0 r1 r2
        | exact ⟨r0, r1, r2, r3, r4, r5, r6, r7⟩
  | bytes data =>
    by_cases hg : s.alive = true ∧ s.crashed = false ∧ s.rrOn = true
    · obtain ⟨ha, hc, h5⟩ := r4 hg.2.2
      have hcr := r3 ha hc h5
      by_cases hv : validChunk data
      · cases so with
        | sent k =>
          dsimp only [remoteRecvStep, closeAll]
          rw [if_pos hg, if_pos hv]
          by_cases hd : s.direct = true <;>
            simp only [hd, Bool.false_eq_true, if_true, if_false] <;>
            split_ifs <;>
            first
              | exact ⟨r0, Or.inr hcr, fun _ => hcr, fun _ _ _ => hcr,
                       fun h => absurd h (show ¬(false = true) by decide), r5,
                       fun _ => ⟨ha, hc, h5⟩, fun h => absurd h (show ¬(s.stage ≤ 1) by omega)⟩
              | exact ⟨r0, Or.inr hcr, fun _ => hcr, fun _ _ _ => hcr, r4, r5, r6, r7⟩
        | serr e =>
          dsimp only [remoteRecvStep, closeAll]
          rw [if_pos hg, if_pos hv]
          by_cases hd : s.direct = true <;>
            simp only [hd, Bool.false_eq_true, if_true, if_false] <;>
            split_ifs <;>
            first
              | exact ⟨r0, Or.inr hcr, fun _ => hcr, fun _ _ _ => hcr,
                       fun h => absurd h (show ¬(false = true) by decide), r5,
                       fun _ => ⟨ha, hc, h5⟩, fun h => absurd h (show ¬(s.stage ≤ 1) by omega)⟩
              | exact ⟨r0, Or.inr hcr, fun _ => hcr, fun _ _ _ => hcr,
                       fun h => absurd h (show ¬(false = true) by decide),
                       fun h => absurd h (show ¬(false = true) by decide),
                       fun h => absurd h (show ¬(false = true) by decide),
                       fun _ => ⟨rfl, rfl, rfl⟩⟩
      · dsimp only [remoteRecvStep]
        rw [if_pos hg, if_neg hv]
        exact ⟨r0, r1, r2, r3, r4, r5, r6, r7⟩
    · dsimp only [remoteRecvStep]
      rw [if_neg hg]
      exact ⟨r0, r1, r2, r3, r4, r5, r6, r7⟩

theorem invR_remoteSend (pk : Bool) (so : SOut) (s : St) (hR : InvR s) :
    InvR (remoteSendStep pk so s) := by
  obtain ⟨r0, r1, r2, r3, r4, r5, r6, r7⟩ := hR
  by_cases hg : s.alive = true ∧ s.crashed = false ∧ s.rsOn = true
  · obtain ⟨ha, hc, h5⟩ := r5 hg.2.2
    have hcr := r3 ha hc h5
    cases so with
    | sent k =>
      dsimp only [remoteSendStep, rmtSendData, closeAll]
      rw [if_pos hg]
      split_ifs <;>
        first
          | exact invR_closed _ r0 r1 r2
          | exact ⟨r0, r1, r2, fun _ _ _ => hcr, fun _ => ⟨ha, hc, h5⟩,
                   fun h => absurd h (show ¬(false = true) by decide), r6,
                   fun h => absurd h (show ¬(s.stage ≤ 1) by omega)⟩
          | exact ⟨r0, r1, r2, fun _ _ _ => hcr, fun _ => ⟨ha, hc, h5⟩, r5, r6,
                   fun h => absurd h (show ¬(s.stage ≤ 1) by omega)⟩
          | exact ⟨r0, r1, r2, fun _ _ _ => hcr, r4,
                   fun h => absurd h (show ¬(false = true) by decide), r6,
                   fun h => absurd h (show ¬(s.stage ≤ 1) by omega)⟩
          | exact ⟨r0, r1, r2, fun _ _ _ => hcr, r4, r5, r6, r7⟩
    | serr e =>
      dsimp only [remoteSendStep, rmtSendData, closeAll]
      rw [if_pos hg]
      split_ifs <;>
        first
          | exact invR_closed _ r0 r1 r2
          | exact ⟨r0, r1, r2, fun _ _ _ => hcr, fun _ => ⟨ha, hc, h5⟩,
                   fun h => absurd h (show ¬(false = true) by decide), r6,
                   fun h => absurd h (show ¬(s.stage ≤ 1) by omega)⟩
          | exact ⟨r0, r1, r2, fun _ _ _ => hcr, fun _ => ⟨ha, hc, h5⟩, r5, r6,
                   fun h => absurd h (show ¬(s.stage ≤ 1) by omega)⟩
          | exact ⟨r0, r1, r2, fun _ _ _ => hcr, r4, r5, r6, r7⟩
  · dsimp only [remoteSendStep]
    rw [if_neg hg]
    exact ⟨r0, r1, r2, r3, r4, r5, r6, r7⟩

theorem invR_timer (s : St) (hR : InvR s) : InvR (timerStep s) := by
  obtain ⟨r0, r1, r2, r3, r4, r5, r6, r7⟩ := hR
  dsimp only [timerStep]
  split_ifs
  · exact invR_closed s r0 r1 r2
  · exact ⟨r0, r1, r2, r3, r4, r5, r6, r7⟩

theorem invR_step (co : Cfg) (s : St) (ev : Ev) (hR : InvR s) : InvR (step co s ev) := by
  cases ev with
  | srvRecv ro am cok rok so => exact invR_serverRecv co ro am cok rok so s hR
  | srvSend so => exact invR_serverSend so s hR
  | rmtRecv ro so => exact invR_remoteRecv co ro so s hR
  | rmtSend pk so => exact invR_remoteSend pk so s hR
  | timerFire => exact invR_timer s hR

theorem invR_run (co : Cfg) (s : St) (evs : List Ev) (hR : InvR s) : InvR (run co s evs) := by
  induction evs generalizing s with
  | nil => exact hR
  | cons ev t ih => exact ih _ (invR_step co s ev hR)

theorem invR_init (fo : Bool) : InvR (init fo) :=
  ⟨Or.inl rfl, Or.inl rfl, fun h => absurd h (show ¬(0 < 0) by decide),
   fun _ _ h => absurd h (show ¬((0:Nat) = 5) by decide),
   fun h => absurd h (show ¬(false = true) by decide),
   fun h => absurd h (show ¬(false = true) by decide),
   fun h => absurd h (show ¬(false = true) by decide),
   fun _ => ⟨rfl, rfl, rfl⟩⟩

/-- C3: any SOCKS5 CONNECT success reply the server has written to the
client is the constant 10-byte record `05 00 00 01 00 00 00 00 00 00`
(the real bind address is never disclosed), and whenever at least one byte
has been read from the upstream socket, that constant reply had already
been written. -/
theorem c3_fake_reply (co : Cfg) (fo : Bool) (s : St) (hr : Reach co (init fo) s) :
    (s.connectReply = none ∨ s.connectReply = some [5, 0, 0, 1, 0, 0, 0, 0, 0, 0]) ∧
    (0 < s.upstreamBytesRead → s.connectReply = some [5, 0, 0, 1, 0, 0, 0, 0, 0, 0]) := by
  obtain ⟨evs, rfl⟩ := hr
  obtain ⟨_, r1, r2, _⟩ := invR_run co (init fo) evs (invR_init fo)
  exact ⟨r1, r2⟩

/-- C3 witness: on a concrete session that has read 2 upstream bytes, the
recorded reply is the constant. -/
theorem c3_witness :
    Reach cfgD (init false) (run cfgD (init false) trBothArmed) ∧
    0 < (run cfgD (init false) trBothArmed).upstreamBytesRead ∧
    ((run cfgD (init false) trBothArmed).connectReply = none ∨
     (run cfgD (init false) trBothArmed).connectReply = some [5, 0, 0, 1, 0, 0, 0, 0, 0, 0]) ∧
    (run cfgD (init false) trBothArmed).connectReply = some [5, 0, 0, 1, 0, 0, 0, 0, 0, 0] :=
  ⟨⟨trBothArmed, rfl⟩, by decide,
   (c3_fake_reply cfgD false _ ⟨trBothArmed, rfl⟩).1,
   (c3_fake_reply cfgD false _ ⟨trBothArmed, rfl⟩).2 (by decide)⟩

/-! ### Per-direction watcher coupling (claim C4) -/

theorem invF_closed (s : St) (r0 : s.stage = 0 ∨ s.stage = 1 ∨ s.stage = 5)
    (f0 : s.fastOpen = false) : InvF (closeAll s) := by
  unfold InvF closeAll
  dsimp only
  exact ⟨r0, f0, fun h => absurd h (show ¬(false = true) by decide)⟩

theorem invF_stage5Tail (so : SOut) (s : St) (c : List Nat)
    (f0 : s.fastOpen = false) (h5 : s.stage = 5)
    (h1 : 0 < s.rLen → s.rsOn = true ∧ s.srOn = false)
    (h2 : 0 < s.sLen → s.ssOn = true ∧ s.rrOn = false)
    (h3 : s.connected = false → s.rrOn = false ∧ s.ssOn = false ∧ s.sLen = 0) :
    InvF (stage5Tail so s c) := by
  have hst : ¬(s.stage ≤ 1) := by omega
  have r0 : s.stage = 0 ∨ s.stage = 1 ∨ s.stage = 5 := Or.inr (Or.inr h5)
  cases so with
  | sent k =>
    dsimp only [stage5Tail, closeAll]
    split_ifs with hcon htfo hk hk2
    · exact ⟨r0, f0, fun _ _ => ⟨fun _ => ⟨rfl, rfl⟩, h2,
             fun _ => ⟨(h3 hcon).1, (h3 hcon).2.1, (h3 hcon).2.2⟩,
             fun hh => absurd hh hst⟩⟩
    · exact absurd (Or.inl f0) htfo
    · exact absurd (Or.inl f0) htfo
    · exact ⟨r0, f0, fun _ _ => ⟨fun _ => ⟨rfl, rfl⟩, h2, fun hx => absurd hx hcon,
             fun hh => absurd hh hst⟩⟩
    · exact ⟨r0, f0, fun _ _ => ⟨h1, h2, fun hx => absurd hx hcon, fun hh => absurd hh hst⟩⟩
  | serr e =>
    cases e <;>
      (dsimp only [stage5Tail, closeAll]
       split_ifs with hcon htfo <;>
         first
           | exact absurd (Or.inl f0) htfo
           | exact invF_closed _ r0 f0
           | exact ⟨r0, f0, fun _ _ => ⟨fun _ => ⟨rfl, rfl⟩, h2,
                    fun _ => ⟨(h3 hcon).1, (h3 hcon).2.1, (h3 hcon).2.2⟩,
                    fun hh => absurd hh hst⟩⟩
           | exact ⟨r0, f0, fun _ _ => ⟨fun _ => ⟨rfl, rfl⟩, h2, fun hx => absurd hx hcon,
                    fun hh => absurd hh hst⟩⟩)

theorem invF_stage5Go (co : Cfg) (so : SOut) (s : St) (r : Nat)
    (f0 : s.fastOpen = false) (h5 : s.stage = 5)
    (h1 : 0 < s.rLen → s.rsOn = true ∧ s.srOn = false)
    (h2 : 0 < s.sLen → s.ssOn = true ∧ s.rrOn = false)
    (h3 : s.connected = false → s.rrOn = false ∧ s.ssOn = false ∧ s.sLen = 0) :
    InvF (stage5Go co so s r) := by
  dsimp only [stage5Go]
  by_cases hd : s.direct = true <;>
    simp only [hd, Bool.false_eq_true, if_true, if_false] <;>
    exact invF_stage5Tail so _ _ f0 h5 h1 h2 h3

theorem invF_stage1Step (co : Cfg) (data : List Nat) (am cok rok : Bool) (so : SOut) (s : St)
    (r0 : s.stage = 0 ∨ s.stage = 1 ∨ s.stage = 5)
    (f0 : s.fastOpen = false)
    (hF4 : s.sLen = 0 ∧ s.rLen = 0 ∧ s.connected = false ∧ s.hasRemote = false ∧
      s.ssOn = false ∧ s.rrOn = false ∧ s.rsOn = false) :
    InvF (stage1Step co data am cok rok so s) := by
  obtain ⟨hsl, hrl, hco, hhr, hss, hrr, hrs⟩ := hF4
  have r05 : (5:Nat) = 0 ∨ (5:Nat) = 1 ∨ (5:Nat) = 5 := Or.inr (Or.inr rfl)
  dsimp only [stage1Step]
  split_ifs with g1 g2 g3 g4 g5 g6 g7 g8
  · exact invF_closed s r0 f0
  · exact invF_closed _ r0 f0
  · -- crash: the machine halts here
    exact ⟨r05, f0, fun _ hcr => absurd hcr (show ¬(true = false) by decide)⟩
  · exact invF_closed _ r05 f0
  · exact invF_stage5Go co so _ _ f0 rfl
      (fun hh => absurd hh (show ¬((0:Nat) < 0) by decide))
      (fun hh => absurd hh (show ¬(0 < s.sLen) by omega))
      (fun _ => ⟨rfl, hss, hsl⟩)
  · exact invF_closed _ r05 f0
  · exact invF_closed _ r05 f0
  · exact invF_stage5Go co so _ _ f0 rfl
      (fun hh => absurd hh (show ¬((0:Nat) < 0) by decide))
      (fun hh => absurd hh (show ¬(0 < s.sLen) by omega))
      (fun _ => ⟨rfl, hss, hsl⟩)
  · exact invF_closed s r0 f0

theorem invF_serverRecv (co : Cfg) (ro : ROut) (am cok rok : Bool) (so : SOut) (s : St)
    (hF : InvF s) : InvF (serverRecvStep co ro am cok rok so s) := by
  obtain ⟨r0, f0, hIn⟩ := hF
  cases ro with
  | closed =>
    dsimp only [serverRecvStep]
    split_ifs <;> first | exact invF_closed s r0 f0 | exact ⟨r0, f0, hIn⟩
  | rerr e =>
    dsimp only [serverRecvStep]
    split_ifs <;> first | exact invF_closed s r0 f0 | exact ⟨r0, f0, hIn⟩
  | bytes data =>
    dsimp only [serverRecvStep]
    split_ifs with hg hv h5 hnr h0
    · exact invF_closed s r0 f0
    · obtain ⟨hL1, hL2, hL3, _⟩ := hIn hg.1 hg.2.1
      exact invF_stage5Go co so _ _ f0 h5 hL1 hL2 hL3
    · -- stage 0 → stage 1
      obtain ⟨_, _, _, hL4⟩ := hIn hg.1 hg.2.1
      obtain ⟨a1, a2, a3, a4, a5, a6, a7⟩ := hL4 (by omega)
      exact ⟨Or.inr (Or.inl rfl), f0, fun _ _ =>
        ⟨fun hh => absurd hh (show ¬(0 < s.rLen) by omega),
         fun hh => absurd hh (show ¬(0 < s.sLen) by omega),
         fun _ => ⟨a6, a5, a1⟩,
         fun _ => ⟨a1, a2, a3, a4, a5, a6, a7⟩⟩⟩
    · -- stage 1 request
      have h1 : s.stage = 1 := by
        rcases r0 with h | h | h
        · exact absurd h h0
        · exact h
        · exact absurd h h5
      obtain ⟨_, _, _, hL4⟩ := hIn hg.1 hg.2.1
      exact invF_stage1Step co data am cok rok so s r0 f0 (hL4 (by omega))
    · exact ⟨r0, f0, hIn⟩
    · exact ⟨r0, f0, hIn⟩

theorem invF_serverSend (so : SOut) (s : St) (hF : InvF s) : InvF (serverSendStep so s) := by
  obtain ⟨r0, f0, hIn⟩ := hF
  by_cases hg : s.alive = true ∧ s.crashed = false ∧ s.ssOn = true
  · obtain ⟨hL1, hL2, hL3, hL4⟩ := hIn hg.1 hg.2.1
    have hcon : ¬(s.connected = false) := fun hx =>
      absurd ((hL3 hx).2.1 ▸ hg.2.2) (show ¬(false = true) by decide)
    have hst : ¬(s.stage ≤ 1) := fun hx =>
      absurd ((hL4 hx).2.2.2.2.1 ▸ hg.2.2) (show ¬(false = true) by decide)
    cases so with
    | sent k =>
      dsimp only [serverSendStep, closeAll]
      rw [if_pos hg]
      split_ifs with h0 hk
      · exact invF_closed s r0 f0
      · -- short send: keep the inbound writer armed
        exact ⟨r0, f0, fun _ _ =>
          ⟨hL1, fun _ => ⟨hg.2.2, (hL2 (by omega)).2⟩, fun hx => absurd hx hcon,
           fun hx => absurd hx hst⟩⟩
      · -- full drain: writer off, upstream reader on
        exact ⟨r0, f0, fun _ _ =>
          ⟨hL1, fun hh => absurd hh (show ¬((0:Nat) < 0) by decide),
           fun hx => absurd hx hcon, fun hx => absurd hx hst⟩⟩
    | serr e =>
      dsimp only [serverSendStep, closeAll]
      rw [if_pos hg]
      split_ifs <;>
        first
          | exact invF_closed s r0 f0
          | exact ⟨r0, f0, fun _ _ => ⟨hL1, hL2, hL3, hL4⟩⟩
  · cases so <;>
      (dsimp only [serverSendStep]; rw [if_neg hg]; exact ⟨r0, f0, hIn⟩)

theorem invF_remoteRecv (co : Cfg) (ro : ROut) (so : SOut) (s : St)
    (hF : InvF s) : InvF (remoteRecvStep co ro so s) := by
  obtain ⟨r0, f0, hIn⟩ := hF
  cases ro with
  | closed =>
    dsimp only [remoteRecvStep]
    split_ifs <;> first | exact invF_closed s r0 f0 | exact ⟨r0, f0, hIn⟩
  | rerr e =>
    dsimp only [remoteRecvStep]
    split_ifs <;> first | exact invF_closed s r0 f0 | exact ⟨r0, f0, hIn⟩
  | bytes data =>
    by_cases hg : s.alive = true ∧ s.crashed = false ∧ s.rrOn = true
    · obtain ⟨hL1, hL2, hL3, hL4⟩ := hIn hg.1 hg.2.1
      have hcon : ¬(s.connected = false) := fun hx =>
        absurd ((hL3 hx).1 ▸ hg.2.2) (show ¬(false = true) by decide)
      have hst : ¬(s.stage ≤ 1) := fun hx =>
        absurd ((hL4 hx).2.2.2.2.2.1 ▸ hg.2.2) (show ¬(false = true) by decide)
      by_cases hv : validChunk data
      · cases so with
        | sent k =>
          dsimp only [remoteRecvStep, closeAll]
          rw [if_pos hg, if_pos hv]
          by_cases hd : s.direct = true <;>
            simp only [hd, Bool.false_eq_true, if_true, if_false] <;>
            split_ifs <;>
            first
              | exact ⟨r0, f0, fun _ _ =>
                  ⟨hL1, fun _ => ⟨rfl, rfl⟩, fun hx => absurd hx hcon,
                   fun hx => absurd hx hst⟩⟩
              | exact ⟨r0, f0, fun _ _ =>
                  ⟨hL1, hL2, fun hx => absurd hx hcon, fun hx => absurd hx hst⟩⟩
        | serr e =>
          dsimp only [remoteRecvStep, closeAll]
          rw [if_pos hg, if_pos hv]
          by_cases hd : s.direct = true <;>
            simp only [hd, Bool.false_eq_true, if_true, if_false] <;>
            split_ifs <;>
            first
              | exact invF_closed _ r0 f0
              | exact ⟨r0, f0, fun _ _ =>
                  ⟨hL1, fun _ => ⟨rfl, rfl⟩, fun hx => absurd hx hcon,
                   fun hx => absurd hx hst⟩⟩
      · dsimp only [remoteRecvStep]
        rw [if_pos hg, if_neg hv]
        exact ⟨r0, f0, hIn⟩
    · dsimp only [remoteRecvStep]
      rw [if_neg hg]
      exact ⟨r0, f0, hIn⟩

theorem invF_remoteSend (pk : Bool) (so : SOut) (s : St) (hF : InvF s) :
    InvF (remoteSendStep pk so s) := by
  obtain ⟨r0, f0, hIn⟩ := hF
  by_cases hg : s.alive = true ∧ s.crashed = false ∧ s.rsOn = true
  · obtain ⟨hL1, hL2, hL3, hL4⟩ := hIn hg.1 hg.2.1
    have hst : ¬(s.stage ≤ 1) := fun hx =>
      absurd ((hL4 hx).2.2.2.2.2.2 ▸ hg.2.2) (show ¬(false = true) by decide)
    cases so with
    | sent k =>
      dsimp only [remoteSendStep, rmtSendData]
      rw [if_pos hg]
      split_ifs with hcon hpk hr0 hk hr02 hk2
      · -- getpeername failed
        exact invF_closed _ r0 f0
      · -- connect completed, nothing pending
        have hsl0 : s.sLen = 0 := (hL3 hcon).2.2
        exact ⟨r0, f0, fun _ _ =>
          ⟨fun hh => absurd hh (show ¬(0 < s.rLen) by omega),
           fun hh => absurd hh (show ¬(0 < s.sLen) by omega),
           fun hx => absurd hx (show ¬(true = false) by decide),
           fun hx => absurd hx hst⟩⟩
      · -- connect completed, pending bytes, short send
        have hsl0 : s.sLen = 0 := (hL3 hcon).2.2
        exact ⟨r0, f0, fun _ _ =>
          ⟨fun _ => ⟨hg.2.2, (hL1 (by omega)).2⟩,
           fun hh => absurd hh (show ¬(0 < s.sLen) by omega),
           fun hx => absurd hx (show ¬(true = false) by decide),
           fun hx => absurd hx hst⟩⟩
      · -- connect completed, pending bytes, full drain
        have hsl0 : s.sLen = 0 := (hL3 hcon).2.2
        exact ⟨r0, f0, fun _ _ =>
          ⟨fun hh => absurd hh (show ¬((0:Nat) < 0) by decide),
           fun hh => absurd hh (show ¬(0 < s.sLen) by omega),
           fun hx => absurd hx (show ¬(true = false) by decide),
           fun hx => absurd hx hst⟩⟩
      · -- already connected, nothing pending: close
        exact invF_closed _ r0 f0
      · -- already connected, short send
        exact ⟨r0, f0, fun _ _ =>
          ⟨fun _ => ⟨hg.2.2, (hL1 (by omega)).2⟩, hL2, fun hx => absurd hx hcon,
           fun hx => absurd hx hst⟩⟩
      · -- already connected, full drain
        exact ⟨r0, f0, fun _ _ =>
          ⟨fun hh => absurd hh (show ¬((0:Nat) < 0) by decide), hL2,
           fun hx => absurd hx hcon, fun hx => absurd hx hst⟩⟩
    | serr e =>
      dsimp only [remoteSendStep, rmtSendData]
      rw [if_pos hg]
      split_ifs with hcon hpk hr0 he hr02 he2
      · exact invF_closed s r0 f0
      · -- connect completed, nothing pending
        have hsl0 : s.sLen = 0 := (hL3 hcon).2.2
        exact ⟨r0, f0, fun _ _ =>
          ⟨fun hh => absurd hh (show ¬(0 < s.rLen) by omega),
           fun hh => absurd hh (show ¬(0 < s.sLen) by omega),
           fun hx => absurd hx (show ¬(true = false) by decide),
           fun hx => absurd hx hst⟩⟩
      · -- connect completed, pending bytes, EAGAIN
        have hsl0 : s.sLen = 0 := (hL3 hcon).2.2
        exact ⟨r0, f0, fun _ _ =>
          ⟨fun _ => ⟨hg.2.2, (hL1 (by omega)).2⟩,
           fun hh => absurd hh (show ¬(0 < s.sLen) by omega),
           fun hx => absurd hx (show ¬(true = false) by decide),
           fun hx => absurd hx hst⟩⟩
      · -- connect completed, pending bytes, fatal send error
        exact invF_closed _ r0 f0
      · -- already connected, nothing pending: close
        exact invF_closed _ r0 f0
      · -- already connected, EAGAIN
        exact ⟨r0, f0, fun _ _ => ⟨hL1, hL2, fun hx => absurd hx hcon,
               fun hx => absurd hx hst⟩⟩
      · -- already connected, fatal send error
        exact invF_closed _ r0 f0
  · cases so <;>
      (dsimp only [remoteSendStep]; rw [if_neg hg]; exact ⟨r0, f0, hIn⟩)

theorem invF_timer (s : St) (hF : InvF s) : InvF (timerStep s) := by
  obtain ⟨r0, f0, hIn⟩ := hF
  dsimp only [timerStep]
  split_ifs
  · exact invF_closed s r0 f0
  · exact ⟨r0, f0, hIn⟩

theorem invF_step (co : Cfg) (s : St) (ev : Ev) (hF : InvF s) : InvF (step co s ev) := by
  cases ev with
  | srvRecv ro am cok rok so => exact invF_serverRecv co ro am cok rok so s hF
  | srvSend so => exact invF_serverSend so s hF
  | rmtRecv ro so => exact invF_remoteRecv co ro so s hF
  | rmtSend pk so => exact invF_remoteSend pk so s hF
  | timerFire => exact invF_timer s hF

theorem invF_run (co : Cfg) (s : St) (evs : List Ev) (hF : InvF s) : InvF (run co s evs) := by
  induction evs generalizing s with
  | nil => exact hF
  | cons ev t ih => exact ih _ (invF_step co s ev hF)

theorem invF_init : InvF (init false) :=
  ⟨Or.inl rfl, rfl, fun _ _ =>
    ⟨fun hh => absurd hh (show ¬((0:Nat) < 0) by decide),
     fun hh => absurd hh (show ¬((0:Nat) < 0) by decide),
     fun _ => ⟨rfl, rfl, rfl⟩, fun _ => ⟨rfl, rfl, rfl, rfl, rfl, rfl, rfl⟩⟩⟩

/-- C4 (amended): with TCP Fast Open disabled, in every live reachable
state each direction respects backpressure: a direction holding unflushed
residual bytes has the far-side write-watcher armed and the near-side
read-watcher disarmed.  (Read- and write-watchers of the same socket serve
the two different directions and CAN be armed together, and the TFO short
first send violates even the per-direction coupling.) -/
theorem c4_amended (co : Cfg) (s : St) (hr : Reach co (init false) s)
    (ha : s.alive = true) (hc : s.crashed = false) :
    (0 < s.rLen → s.rsOn = true ∧ s.srOn = false) ∧
    (0 < s.sLen → s.ssOn = true ∧ s.rrOn = false) := by
  obtain ⟨evs, rfl⟩ := hr
  obtain ⟨_, _, hIn⟩ := invF_run co (init false) evs invF_init
  exact ⟨(hIn ha hc).1, (hIn ha hc).2.1⟩

/-- C4 witness: the per-direction coupling evaluated on a concrete
reachable state holding 7 pending upstream bytes. -/
theorem c4_witness :
    Reach cfgD (init false) (run cfgD (init false) trPendingConnect) ∧
    (run cfgD (init false) trPendingConnect).alive = true ∧
    ((0 < (run cfgD (init false) trPendingConnect).rLen →
      (run cfgD (init false) trPendingConnect).rsOn = true ∧
      (run cfgD (init false) trPendingConnect).srOn = false) ∧
     (0 < (run cfgD (init false) trPendingConnect).sLen →
      (run cfgD (init false) trPendingConnect).ssOn = true ∧
      (run cfgD (init false) trPendingConnect).rrOn = false)) :=
  ⟨⟨trPendingConnect, rfl⟩, by decide,
   c4_amended cfgD _ ⟨trPendingConnect, rfl⟩ (by decide) (by decide)⟩

/-- C5 witness: the ENOTCONN fallback evaluated on the concrete
post-greeting state and the concrete CONNECT request. -/
theorem c5_witness :
    stage1St.stage = 1 ∧ stage1St.fastOpen = true ∧
    ((serverRecvStep cfgD (.bytes reqIPv4) false true true (.serr .enotconn) stage1St).fastOpen
       = false ∧
     (serverRecvStep cfgD (.bytes reqIPv4) false true true (.serr .enotconn) stage1St).alive
       = false) :=
  ⟨by decide, by decide,
   c5_amended cfgD stage1St reqIPv4 (by decide) (by decide) (by decide) (by decide)
     (by decide) (by decide) (by decide) (by decide)⟩

/-- C7 witness: the EINPROGRESS handling evaluated on the concrete
post-greeting state and the concrete CONNECT request. -/
theorem c7_witness :
    stage1St.stage = 1 ∧ stage1St.sendTimerOn = false ∧
    ((serverRecvStep cfgD (.bytes reqIPv4) false true true (.serr .einprogress) stage1St).rIdx
        = 0 ∧
     (serverRecvStep cfgD (.bytes reqIPv4) false true true (.serr .einprogress) stage1St).rLen =
       (cfgD.enc stage1St.encIdx (ssAddrToSend reqIPv4 ++
         reqIPv4.drop (ssConsumed reqIPv4))).length ∧
     (serverRecvStep cfgD (.bytes reqIPv4) false true true (.serr .einprogress) stage1St).rMem =
       cfgD.enc stage1St.encIdx (ssAddrToSend reqIPv4 ++ reqIPv4.drop (ssConsumed reqIPv4)) ∧
     (serverRecvStep cfgD (.bytes reqIPv4) false true true (.serr .einprogress) stage1St).srOn
        = false ∧
     (serverRecvStep cfgD (.bytes reqIPv4) false true true (.serr .einprogress) stage1St).rsOn
        = true ∧
     (serverRecvStep cfgD (.bytes reqIPv4) false true true
        (.serr .einprogress) stage1St).sendTimerOn = false ∧
     (serverRecvStep cfgD (.bytes reqIPv4) false true true
        (.serr .einprogress) stage1St).upDelivered = stage1St.upDelivered ∧
     (serverRecvStep cfgD (.bytes reqIPv4) false true true (.serr .einprogress) stage1St).alive
        = true) :=
  ⟨by decide, by decide,
   c7_amended cfgD stage1St reqIPv4 (by decide) (by decide) (by decide) (by decide)
     (by decide) (by decide) (by decide) (by decide)⟩

/-- C8 witness: the BIND request from the spec scenario gets `05 07 00 01`
followed by teardown. -/
theorem c8_witness :
    stage1StF.stage = 1 ∧ reqBind.getD 1 0 ≠ 1 ∧
    ((serverRecvStep cfgD (.bytes reqBind) false false false (.sent 0) stage1StF).errReply =
       some [5, 7, 0, 1] ∧
     (serverRecvStep cfgD (.bytes reqBind) false false false (.sent 0) stage1StF).alive =
       false) :=
  ⟨by decide, by decide,
   c8_unsupported_cmd cfgD stage1StF reqBind false false false (.sent 0) (by decide) (by decide)
     (by decide) (by decide) (by decide) (by decide) (by decide)⟩

/-- C10 witness: with the access list matching, a NULL `connect_to_remote`
is dereferenced; without the match, the same failure closes cleanly. -/
theorem c10_witness :
    ((serverRecvStep cfgD (.bytes reqIPv4) true false true (.sent 0) stage1StF).crashed
       = true) ∧
    ((serverRecvStep cfgD (.bytes reqIPv4) false false true (.sent 0) stage1StF).crashed
       = false ∧
     (serverRecvStep cfgD (.bytes reqIPv4) false false true (.sent 0) stage1StF).alive
       = false) :=
  ⟨(c10_amended cfgD stage1StF reqIPv4 true true (.sent 0) (by decide) (by decide) (by decide)
      (by decide) (by decide) (by decide) (by decide)).1 ⟨rfl, by decide⟩,
   (c10_amended cfgD stage1StF reqIPv4 false true (.sent 0) (by decide) (by decide) (by decide)
      (by decide) (by decide) (by decide) (by decide)).2 (by decide)⟩

/-- C2 witness: on the domain CONNECT scenario of the spec the first upstream payload
before encryption is the header `03 09 65 78 61 6D 70 6C 65 2E 63 6F 6D`
followed by the trailing bytes `01 BB`. -/
theorem c2_witness :
    ((if (false = true ∧ (req3.getD 3 0 = 1 ∨ req3.getD 3 0 = 3)) then ([] : List Nat)
      else specAddrHeader req3) ++ req3.drop (ssConsumed req3) =
      [3, 9, 101, 120, 97, 109, 112, 108, 101, 46, 99, 111, 109, 1, 187]) ∧
    (serverRecvStep cfgD (.bytes req3) false true true (.sent 0) stage1StF).firstUpPlain =
      some ((if (false = true ∧ (req3.getD 3 0 = 1 ∨ req3.getD 3 0 = 3)) then ([] : List Nat)
        else specAddrHeader req3) ++ req3.drop (ssConsumed req3)) :=
  ⟨by decide,
   c2_first_upstream_payload cfgD stage1StF req3 false (.sent 0) (by decide) (by decide)
     (by decide) (by decide) (by decide) (by decide) (by decide)⟩
